import Mathlib

/-!
Verification of the deprecation-warning test harness of the repository
(`checkV9Deprecation`, `createCheckV9Deprecation` and the message formatter
`createMessage`).

The harness manipulates exactly one piece of global state: the process-wide
warning channel `console.warn`, replaced and restored through jest spies.
We embed that state as a `World`: the current value of the `console.warn`
slot (the original function, or a spy identified by a numeric id) together
with the mock state of every spy object ever created (a jest spy object
survives `mockRestore` of the slot: it keeps its recorded calls and can be
queried by `expect`).

The jest operations used by the source are modelled faithfully:
  * `jest.spyOn(console,'warn').mockImplementation(f)` returns the already
    installed mock when `console.warn` is currently a mock (jest's `spyOn`
    does not re-wrap a mock) and merely replaces its implementation;
    otherwise it creates a fresh spy that saves the current slot value for
    later restoration;
  * `mockClear` empties the recorded calls;
  * `mockReset` additionally drops the mocked implementation;
  * `mockRestore` does everything `mockReset` does and puts the saved value
    back into the slot;
  * calling `console.warn(p)` records `p` on the installed spy (if any) and
    then runs its implementation, which for the payload-matching
    implementation of `createCheckV9Deprecation` can throw an assertion
    failure (`expect(warnMessage).toMatch(message)`).

The modular/legacy functions handed to the harness are zero-argument
procedures whose only observable effect is the sequence of `console.warn`
payloads they emit; we model such a function by that list of payloads.
Assertion failures (`expect(...)`) propagate synchronously, so a harness run
returns `Option Failure × World`: the first failed assertion (if any) and
the final state of the warning channel.
-/

namespace DeprecationHarness

/-- The value currently stored in the `console.warn` slot: the original
function, or a jest spy with the given id. -/
inductive SlotVal where
  | original
  | spy (i : Nat)
deriving DecidableEq, Repr

/-- The mock implementations occurring in the source: the no-op
`() => {}`, and the payload-matching implementation
`warnMessage => { expect(warnMessage).toMatch(message) }` of
`createCheckV9Deprecation`. -/
inductive Impl where
  | noop
  | matcher (expected : String)
deriving DecidableEq, Repr

/-- The state of one jest spy object: the slot value it saved at creation
(restored by `mockRestore`), its current mocked implementation (`none`
after `mockReset`), and the recorded call payloads. -/
structure SpyState where
  saved : SlotVal
  impl : Option Impl
  calls : List String
deriving DecidableEq, Repr

/-- The global state: the `console.warn` slot, the state of every spy
object (indexed by id), and the next fresh spy id. -/
structure World where
  slot : SlotVal
  spies : Nat → SpyState
  nextId : Nat

def initSpy : SpyState := ⟨SlotVal.original, none, []⟩

def initWorld : World := ⟨SlotVal.original, fun _ => initSpy, 0⟩

def getSpy (w : World) (i : Nat) : SpyState := w.spies i

def setSpy (w : World) (i : Nat) (s : SpyState) : World :=
  { w with spies := fun j => if j = i then s else w.spies j }

/-- `jest.spyOn(console, 'warn').mockImplementation(imp)`.  When the slot
already holds a mock, jest's `spyOn` returns that mock unchanged and
`mockImplementation` replaces its implementation; otherwise a fresh spy is
created, saving the current slot value. -/
def spyOnMockImpl (w : World) (imp : Impl) : Nat × World :=
  match w.slot with
  | SlotVal.spy i => (i, setSpy w i { getSpy w i with impl := some imp })
  | SlotVal.original =>
      (w.nextId,
        { slot := SlotVal.spy w.nextId,
          spies := fun j =>
            if j = w.nextId then ⟨SlotVal.original, some imp, []⟩ else w.spies j,
          nextId := w.nextId + 1 })

/-- `spy.mockClear()`: forget the recorded calls. -/
def mockClear (w : World) (i : Nat) : World :=
  setSpy w i { getSpy w i with calls := [] }

/-- `spy.mockReset()`: forget the recorded calls and the implementation. -/
def mockReset (w : World) (i : Nat) : World :=
  setSpy w i { getSpy w i with calls := [], impl := none }

/-- `spy.mockRestore()`: everything `mockReset` does, and the saved value is
put back into the `console.warn` slot (the spy is uninstalled). -/
def mockRestore (w : World) (i : Nat) : World :=
  { slot := (getSpy w i).saved,
    spies := fun j =>
      if j = i then ⟨(getSpy w i).saved, none, []⟩ else w.spies j,
    nextId := w.nextId }

/-- The assertion failures the harness can raise (section 7 of the spec):
an unexpected warning during the modular call, a wrong warning count during
the legacy call, or a payload that fails to match the expected message. -/
inductive Failure where
  | modularWarned (calls : List String)
  | wrongCount (n : Nat)
  | payloadMismatch (payload expected : String)
deriving DecidableEq, Repr

/-- Whether `needle` occurs as a contiguous sublist of `haystack`. -/
def containsSub (needle : List Char) : List Char → Bool
  | [] => needle.isEmpty
  | c :: rest => needle.isPrefixOf (c :: rest) || containsSub needle rest

/-- `expect(payload).toMatch(expected)` with a string argument: substring
containment of `expected` in `payload`. -/
def matchStr (payload expected : String) : Bool :=
  containsSub expected.toList payload.toList

/-- Modelled from the spec: `createMessage` is imported from `./index`,
which is not among the provided source files.  Per the spec (§4.1, §8) it
is a pure function that deterministically builds a canonical deprecation
string containing the module name, instance name and method key in a fixed
template, optionally extended by a caller-supplied unique suffix. -/
def createMessage (moduleName methodNameKey instanceName uniqueMessage : String) :
    String :=
  "deprecated-method " ++ moduleName ++ "/" ++ instanceName ++ "/" ++
    methodNameKey ++ uniqueMessage

/-- Emitting one warning: `console.warn(p)`.  The installed spy (if any)
records the payload first and then runs its implementation; the matching
implementation throws on a payload that does not match. -/
def warn (w : World) (p : String) : Option Failure × World :=
  match w.slot with
  | SlotVal.original => (none, w)
  | SlotVal.spy i =>
      let s := getSpy w i
      let w1 := setSpy w i { s with calls := s.calls ++ [p] }
      match s.impl with
      | some (Impl.matcher expected) =>
          if matchStr p expected then (none, w1)
          else (some (Failure.payloadMismatch p expected), w1)
      | _ => (none, w1)

/-- Running a zero-argument function that emits the given warnings in
order; an exception thrown from inside `console.warn` aborts it. -/
def emitAll (l : List String) (w : World) : Option Failure × World :=
  match l with
  | [] => (none, w)
  | p :: rest =>
      match warn w p with
      | (some f, w1) => (some f, w1)
      | (none, w1) => emitAll rest w1

/-- The first payload of `l` that fails to match `e`, if any. -/
def firstMismatch (l : List String) (e : String) : Option String :=
  match l with
  | [] => none
  | p :: rest => if matchStr p e then firstMismatch rest e else some p

/-- Embedding of `checkV9Deprecation` (src/unnamed/part_000, lines 5-16),
line by line:
  spy₁ := jest.spyOn(console,'warn').mockImplementation(() => \x7b\x7d);
  spy₁.mockRestore();
  modularFunction();
  expect(spy₁).not.toHaveBeenCalled();
  spy₁.mockClear();
  spy₂ := jest.spyOn(console,'warn').mockImplementation(() => \x7b\x7d);
  nonModularFunction();
  expect(spy₂).toHaveBeenCalledTimes(1);
  spy₂.mockClear();
A failed `expect` throws, skipping the rest. -/
def checkV9Deprecation (modularFunction nonModularFunction : List String)
    (w : World) : Option Failure × World :=
  let r1 := spyOnMockImpl w Impl.noop
  let consoleWarnSpy := r1.1
  let w1 := mockRestore r1.2 consoleWarnSpy
  let r2 := emitAll modularFunction w1
  match r2.1 with
  | some f => (some f, r2.2)
  | none =>
      if (getSpy r2.2 consoleWarnSpy).calls = [] then
        let w2 := mockClear r2.2 consoleWarnSpy
        let r3 := spyOnMockImpl w2 Impl.noop
        let consoleWarnSpy2 := r3.1
        let r4 := emitAll nonModularFunction r3.2
        match r4.1 with
        | some f => (some f, r4.2)
        | none =>
            if (getSpy r4.2 consoleWarnSpy2).calls.length = 1 then
              (none, mockClear r4.2 consoleWarnSpy2)
            else
              (some (Failure.wrongCount (getSpy r4.2 consoleWarnSpy2).calls.length),
                r4.2)
      else (some (Failure.modularWarned (getSpy r2.2 consoleWarnSpy).calls), r2.2)

/-- The instance name computed by the checker:
`moduleNames[1] || 'default'` (a missing element is `undefined`, and both
`undefined` and the empty string are falsy). -/
def instanceNameOf (moduleNames : List String) : String :=
  if moduleNames.getD 1 "" = "" then "default" else moduleNames.getD 1 ""

/-- The module name used by the checker: `moduleNames[0]` (a missing
element is `undefined`, which stringifies to "undefined" in the message
template). -/
def moduleNameOf (moduleNames : List String) : String :=
  moduleNames.getD 0 "undefined"

/-- Embedding of `createCheckV9Deprecation` (src/unnamed/part_000, lines
25-50).  The factory takes `moduleNames` and returns a checker taking
(modularFunction, nonModularFunction, methodNameKey, uniqueMessage), here
with the world threaded explicitly:
  moduleName := moduleNames[0];
  instanceName := moduleNames[1] || 'default';
  spy₁ := jest.spyOn(console,'warn').mockImplementation(() => \x7b\x7d);
  spy₁.mockReset();          -- not mockRestore: the spy must stay installed
  modularFunction();
  expect(spy₁).not.toHaveBeenCalled();
  spy₁.mockReset();
  spy₁.mockRestore();
  spy₂ := jest.spyOn(console,'warn').mockImplementation(warnMessage => \x7b
    message := createMessage(moduleName, methodNameKey, instanceName, uniqueMessage);
    expect(warnMessage).toMatch(message) \x7d);
  nonModularFunction();
  expect(spy₂).toHaveBeenCalledTimes(1);
  spy₂.mockReset(); -/
def createCheckV9Deprecation (moduleNames : List String) :
    List String → List String → String → String → World → Option Failure × World :=
  fun modularFunction nonModularFunction methodNameKey uniqueMessage w =>
    let moduleName := moduleNameOf moduleNames
    let instanceName := instanceNameOf moduleNames
    let r1 := spyOnMockImpl w Impl.noop
    let consoleWarnSpy := r1.1
    let w1 := mockReset r1.2 consoleWarnSpy
    let r2 := emitAll modularFunction w1
    match r2.1 with
    | some f => (some f, r2.2)
    | none =>
        if (getSpy r2.2 consoleWarnSpy).calls = [] then
          let w2 := mockReset r2.2 consoleWarnSpy
          let w3 := mockRestore w2 consoleWarnSpy
          let message := createMessage moduleName methodNameKey instanceName uniqueMessage
          let r3 := spyOnMockImpl w3 (Impl.matcher message)
          let consoleWarnSpy2 := r3.1
          let r4 := emitAll nonModularFunction r3.2
          match r4.1 with
          | some f => (some f, r4.2)
          | none =>
              if (getSpy r4.2 consoleWarnSpy2).calls.length = 1 then
                (none, mockReset r4.2 consoleWarnSpy2)
              else
                (some (Failure.wrongCount (getSpy r4.2 consoleWarnSpy2).calls.length),
                  r4.2)
        else (some (Failure.modularWarned (getSpy r2.2 consoleWarnSpy).calls), r2.2)

/-- The message the checker returned by `createCheckV9Deprecation moduleNames`
matches legacy warnings against. -/
def expectedMessage (moduleNames : List String) (methodNameKey uniqueMessage : String) :
    String :=
  createMessage (moduleNameOf moduleNames) methodNameKey
    (instanceNameOf moduleNames) uniqueMessage

/-- A world in which every spy object saved the original `console.warn`
(true of every world reachable from `initWorld`: a spy is only created when
the slot holds the original). -/
def Clean (w : World) : Prop :=
  ∀ i, (w.spies i).saved = SlotVal.original

end DeprecationHarness

namespace DeprecationHarness

theorem slot_setSpy (w : World) (i : Nat) (s : SpyState) : (setSpy w i s).slot = w.slot := rfl

theorem getSpy_setSpy_same (w : World) (i : Nat) (s : SpyState) :
    getSpy (setSpy w i s) i = s := by
  simp [getSpy, setSpy]

theorem setSpy_getSpy (w : World) (i : Nat) : setSpy w i (getSpy w i) = w := by
  cases w with
  | mk slot spies nextId =>
      simp only [setSpy, getSpy]
      congr 1
      funext j
      by_cases h : j = i
      · simp [h]
      · simp [h]

theorem setSpy_setSpy (w : World) (i : Nat) (a b : SpyState) :
    setSpy (setSpy w i a) i b = setSpy w i b := by
  cases w with
  | mk slot spies nextId =>
      simp only [setSpy]
      congr 1
      funext j
      by_cases h : j = i
      · simp [h]
      · simp [h]

theorem emitAll_original (l : List String) (w : World)
    (h : w.slot = SlotVal.original) : emitAll l w = (none, w) := by
  induction l with
  | nil => rfl
  | cons p rest ih => simp [emitAll, warn, h, ih]

theorem warn_record (w : World) (i : Nat) (p : String)
    (hs : w.slot = SlotVal.spy i)
    (hi : (getSpy w i).impl = none ∨ (getSpy w i).impl = some Impl.noop) :
    warn w p =
      (none, setSpy w i ⟨(getSpy w i).saved, (getSpy w i).impl, (getSpy w i).calls ++ [p]⟩) := by
  unfold warn
  rw [hs]
  rcases hi with h | h <;> simp [h]

theorem emitAll_record (l : List String) (w : World) (i : Nat)
    (hs : w.slot = SlotVal.spy i)
    (hi : (getSpy w i).impl = none ∨ (getSpy w i).impl = some Impl.noop) :
    emitAll l w =
      (none, setSpy w i ⟨(getSpy w i).saved, (getSpy w i).impl, (getSpy w i).calls ++ l⟩) := by
  induction l generalizing w with
  | nil =>
      rw [emitAll]
      simp only [List.append_nil]
      rw [setSpy_getSpy]
  | cons p rest ih =>
      rw [emitAll, warn_record w i p hs hi]
      dsimp only
      rw [ih _ (by rw [slot_setSpy, hs])
        (by rw [getSpy_setSpy_same]; exact hi)]
      rw [getSpy_setSpy_same, setSpy_setSpy]
      simp

theorem warn_matcher_ok (w : World) (i : Nat) (p e : String)
    (hs : w.slot = SlotVal.spy i)
    (hi : (getSpy w i).impl = some (Impl.matcher e))
    (hm : matchStr p e = true) :
    warn w p =
      (none, setSpy w i ⟨(getSpy w i).saved, (getSpy w i).impl, (getSpy w i).calls ++ [p]⟩) := by
  unfold warn
  rw [hs]
  simp [hi, hm]

theorem warn_matcher_fail (w : World) (i : Nat) (p e : String)
    (hs : w.slot = SlotVal.spy i)
    (hi : (getSpy w i).impl = some (Impl.matcher e))
    (hm : matchStr p e = false) :
    (warn w p).1 = some (Failure.payloadMismatch p e) := by
  unfold warn
  rw [hs]
  simp [hi, hm]

theorem emitAll_matcher_ok (l : List String) (w : World) (i : Nat) (e : String)
    (hs : w.slot = SlotVal.spy i)
    (hi : (getSpy w i).impl = some (Impl.matcher e))
    (hall : ∀ p ∈ l, matchStr p e = true) :
    emitAll l w =
      (none, setSpy w i ⟨(getSpy w i).saved, (getSpy w i).impl, (getSpy w i).calls ++ l⟩) := by
  induction l generalizing w with
  | nil =>
      rw [emitAll]
      simp only [List.append_nil]
      rw [setSpy_getSpy]
  | cons p rest ih =>
      rw [emitAll, warn_matcher_ok w i p e hs hi (hall p (List.mem_cons_self p rest))]
      dsimp only
      rw [ih _ (by rw [slot_setSpy, hs])
        (by rw [getSpy_setSpy_same]; exact hi)
        (fun q hq => hall q (List.mem_cons_of_mem p hq))]
      rw [getSpy_setSpy_same, setSpy_setSpy]
      simp

theorem warn_original (w : World) (p : String) (h : w.slot = SlotVal.original) :
    warn w p = (none, w) := by
  unfold warn
  rw [h]

theorem warn_matcher_fail_eq (w : World) (i : Nat) (p e : String)
    (hs : w.slot = SlotVal.spy i)
    (hi : (getSpy w i).impl = some (Impl.matcher e))
    (hm : matchStr p e = false) :
    warn w p =
      (some (Failure.payloadMismatch p e),
        setSpy w i ⟨(getSpy w i).saved, (getSpy w i).impl, (getSpy w i).calls ++ [p]⟩) := by
  unfold warn
  rw [hs]
  simp [hi, hm]

theorem emitAll_matcher_fail (l : List String) (w : World) (i : Nat) (e p : String)
    (hs : w.slot = SlotVal.spy i)
    (hi : (getSpy w i).impl = some (Impl.matcher e))
    (hfm : firstMismatch l e = some p) :
    (emitAll l w).1 = some (Failure.payloadMismatch p e) := by
  induction l generalizing w with
  | nil => simp [firstMismatch] at hfm
  | cons q rest ih =>
      rw [emitAll]
      cases hm : matchStr q e with
      | true =>
          rw [warn_matcher_ok w i q e hs hi hm]
          dsimp only
          rw [firstMismatch, if_pos hm] at hfm
          exact ih _ (by rw [slot_setSpy, hs]) (by rw [getSpy_setSpy_same]; exact hi) hfm
      | false =>
          rw [firstMismatch, hm] at hfm
          simp only [Bool.false_eq_true, if_false, Option.some.injEq] at hfm
          subst hfm
          rw [warn_matcher_fail_eq w i q e hs hi hm]

theorem slot_warn (w : World) (p : String) : (warn w p).2.slot = w.slot := by
  cases h : w.slot with
  | original => rw [warn_original w p h]; exact h
  | spy i =>
      cases himpl : (getSpy w i).impl with
      | none => rw [warn_record w i p h (Or.inl himpl)]; dsimp only; rw [slot_setSpy, h]
      | some imp =>
          cases imp with
          | noop => rw [warn_record w i p h (Or.inr himpl)]; dsimp only; rw [slot_setSpy, h]
          | matcher e =>
              cases hm : matchStr p e with
              | true => rw [warn_matcher_ok w i p e h himpl hm]; dsimp only; rw [slot_setSpy, h]
              | false => rw [warn_matcher_fail_eq w i p e h himpl hm]; dsimp only; rw [slot_setSpy, h]

theorem saved_setSpy (w : World) (i j : Nat) (s : SpyState)
    (hsv : s.saved = (w.spies i).saved) :
    ((setSpy w i s).spies j).saved = (w.spies j).saved := by
  by_cases hj : j = i
  · subst hj; simp [setSpy, hsv]
  · simp [setSpy, hj]

theorem saved_warn (w : World) (p : String) (j : Nat) :
    ((warn w p).2.spies j).saved = (w.spies j).saved := by
  cases h : w.slot with
  | original => rw [warn_original w p h]
  | spy i =>
      cases himpl : (getSpy w i).impl with
      | none => rw [warn_record w i p h (Or.inl himpl)]; exact saved_setSpy w i j _ rfl
      | some imp =>
          cases imp with
          | noop => rw [warn_record w i p h (Or.inr himpl)]; exact saved_setSpy w i j _ rfl
          | matcher e =>
              cases hm : matchStr p e with
              | true => rw [warn_matcher_ok w i p e h himpl hm]; exact saved_setSpy w i j _ rfl
              | false => rw [warn_matcher_fail_eq w i p e h himpl hm]; exact saved_setSpy w i j _ rfl

theorem saved_emitAll (l : List String) (w : World) (j : Nat) :
    ((emitAll l w).2.spies j).saved = (w.spies j).saved := by
  induction l generalizing w with
  | nil => rfl
  | cons p rest ih =>
      rw [emitAll]
      cases hw : warn w p with
      | mk f w1 =>
          have h1 : (w1.spies j).saved = (w.spies j).saved := by
            have h2 := saved_warn w p j
            rw [hw] at h2
            exact h2
          cases f with
          | none => dsimp only; rw [ih]; exact h1
          | some f0 => dsimp only; exact h1

theorem slot_emitAll (l : List String) (w : World) : (emitAll l w).2.slot = w.slot := by
  induction l generalizing w with
  | nil => rfl
  | cons p rest ih =>
      rw [emitAll]
      cases hw : warn w p with
      | mk f w1 =>
          have h1 : w1.slot = w.slot := by
            have h2 := slot_warn w p
            rw [hw] at h2
            exact h2
          cases f with
          | none => dsimp only; rw [ih]; exact h1
          | some f0 => dsimp only; exact h1

theorem firstMismatch_none (l : List String) (e : String)
    (hall : ∀ p ∈ l, matchStr p e = true) : firstMismatch l e = none := by
  induction l with
  | nil => rfl
  | cons p rest ih =>
      rw [firstMismatch, if_pos (hall p (List.mem_cons_self p rest))]
      exact ih fun q hq => hall q (List.mem_cons_of_mem p hq)

theorem emitAll_noop (l : List String) (w : World) (i : Nat)
    (hs : w.slot = SlotVal.spy i)
    (hi : (getSpy w i).impl = some Impl.noop) :
    emitAll l w =
      (none, setSpy w i ⟨(getSpy w i).saved, (getSpy w i).impl, (getSpy w i).calls ++ l⟩) :=
  emitAll_record l w i hs (Or.inr hi)

theorem emitAll_noimpl (l : List String) (w : World) (i : Nat)
    (hs : w.slot = SlotVal.spy i)
    (hi : (getSpy w i).impl = none) :
    emitAll l w =
      (none, setSpy w i ⟨(getSpy w i).saved, (getSpy w i).impl, (getSpy w i).calls ++ l⟩) :=
  emitAll_record l w i hs (Or.inl hi)

theorem spyOn_original (w : World) (imp : Impl) (h : w.slot = SlotVal.original) :
    spyOnMockImpl w imp = (w.nextId,
      { slot := SlotVal.spy w.nextId,
        spies := fun j => if j = w.nextId then ⟨SlotVal.original, some imp, []⟩ else w.spies j,
        nextId := w.nextId + 1 }) := by
  unfold spyOnMockImpl
  rw [h]

theorem Clean_setSpy (w : World) (i : Nat) (s : SpyState) (hw : Clean w)
    (hs : s.saved = SlotVal.original) : Clean (setSpy w i s) := by
  intro j
  by_cases hj : j = i
  · simp [setSpy, hj, hs]
  · simp [setSpy, hj]; exact hw j

theorem Clean_spyOn (w : World) (imp : Impl) (hw : Clean w) :
    Clean (spyOnMockImpl w imp).2 := by
  cases h : w.slot with
  | original =>
      rw [spyOn_original w imp h]
      intro j
      by_cases hj : j = w.nextId
      · simp [hj]
      · simp [hj]; exact hw j
  | spy i =>
      unfold spyOnMockImpl
      rw [h]
      exact Clean_setSpy w i _ hw (hw i)

theorem Clean_mockClear (w : World) (i : Nat) (hw : Clean w) : Clean (mockClear w i) :=
  Clean_setSpy w i _ hw (hw i)

theorem Clean_mockReset (w : World) (i : Nat) (hw : Clean w) : Clean (mockReset w i) :=
  Clean_setSpy w i _ hw (hw i)

theorem Clean_mockRestore (w : World) (i : Nat) (hw : Clean w) : Clean (mockRestore w i) := by
  intro j
  by_cases hj : j = i
  · simp [mockRestore, hj]; exact hw i
  · simp [mockRestore, hj]; exact hw j

theorem Clean_emitAll (l : List String) (w : World) (hw : Clean w) :
    Clean (emitAll l w).2 := by
  intro j
  rw [saved_emitAll]
  exact hw j

theorem Clean_initWorld : Clean initWorld := fun _ => rfl

theorem checkV9_run_original (m l : List String) (w : World)
    (h : w.slot = SlotVal.original) :
    (checkV9Deprecation m l w).1 =
      (if l.length = 1 then none else some (Failure.wrongCount l.length))
    ∧ (checkV9Deprecation m l w).2.slot ≠ SlotVal.original := by
  have e1 := spyOn_original w Impl.noop h
  have e2 : mockRestore
      { slot := SlotVal.spy w.nextId,
        spies := fun j => if j = w.nextId then ⟨SlotVal.original, some Impl.noop, []⟩ else w.spies j,
        nextId := w.nextId + 1 } w.nextId
      = { slot := SlotVal.original,
          spies := fun j => if j = w.nextId then ⟨SlotVal.original, none, []⟩ else w.spies j,
          nextId := w.nextId + 1 } := by
    unfold mockRestore getSpy
    congr 1
    · simp
    · funext j
      by_cases hj : j = w.nextId <;> simp [hj]
  have e4 : getSpy
      { slot := SlotVal.original,
        spies := fun j => if j = w.nextId then ⟨SlotVal.original, none, []⟩ else w.spies j,
        nextId := w.nextId + 1 } w.nextId = ⟨SlotVal.original, none, []⟩ := by
    simp [getSpy]
  unfold checkV9Deprecation
  rw [e1]
  dsimp only
  rw [e2]
  rw [emitAll_original m _ rfl]
  dsimp only
  rw [e4]
  rw [if_pos rfl]
  have hs5 : (mockClear
      { slot := SlotVal.original,
        spies := fun j => if j = w.nextId then ⟨SlotVal.original, none, []⟩ else w.spies j,
        nextId := w.nextId + 1 } w.nextId).slot = SlotVal.original := rfl
  generalize hgen : mockClear
      { slot := SlotVal.original,
        spies := fun j => if j = w.nextId then ⟨SlotVal.original, none, []⟩ else w.spies j,
        nextId := w.nextId + 1 } w.nextId = v
  rw [hgen] at hs5
  rw [spyOn_original v Impl.noop hs5]
  dsimp only
  rw [emitAll_noop l
      { slot := SlotVal.spy v.nextId,
        spies := fun j => if j = v.nextId then ⟨SlotVal.original, some Impl.noop, []⟩ else v.spies j,
        nextId := v.nextId + 1 } v.nextId rfl (by simp [getSpy])]
  dsimp only
  rw [getSpy_setSpy_same]
  simp only [List.nil_append]
  constructor
  · by_cases hc : l.length = 1 <;> simp [hc, getSpy]
  · by_cases hc : l.length = 1 <;> simp [hc, getSpy, mockClear, setSpy]

theorem World_mk_eq {a b : SlotVal} {f g : Nat → SpyState} {n k : Nat}
    (h1 : a = b) (h2 : ∀ j, f j = g j) (h3 : n = k) :
    (⟨a, f, n⟩ : World) = ⟨b, g, k⟩ := by
  subst h1
  subst h3
  rw [funext h2]

theorem checkV9_run_spy (m l : List String) (w : World) (i : Nat) (hw : Clean w)
    (h : w.slot = SlotVal.spy i) :
    (checkV9Deprecation m l w).1 =
      (if l.length = 1 then none else some (Failure.wrongCount l.length))
    ∧ (checkV9Deprecation m l w).2.slot ≠ SlotVal.original := by
  have hsv : (getSpy w i).saved = SlotVal.original := hw i
  have e1 : spyOnMockImpl w Impl.noop
      = (i, setSpy w i ⟨(getSpy w i).saved, some Impl.noop, (getSpy w i).calls⟩) := by
    unfold spyOnMockImpl
    rw [h]
  have e2 : mockRestore (setSpy w i ⟨(getSpy w i).saved, some Impl.noop, (getSpy w i).calls⟩) i
      = { slot := SlotVal.original,
          spies := fun j => if j = i then ⟨SlotVal.original, none, []⟩
            else (setSpy w i ⟨(getSpy w i).saved, some Impl.noop, (getSpy w i).calls⟩).spies j,
          nextId := w.nextId } := by
    unfold mockRestore
    refine World_mk_eq ?_ (fun j => ?_) rfl
    · rw [getSpy_setSpy_same]
      exact hsv
    · by_cases hj : j = i <;> simp [hj, hsv, getSpy_setSpy_same]
  have e4 : getSpy
      { slot := SlotVal.original,
        spies := fun j => if j = i then ⟨SlotVal.original, none, []⟩
          else (setSpy w i ⟨(getSpy w i).saved, some Impl.noop, (getSpy w i).calls⟩).spies j,
        nextId := w.nextId } i = ⟨SlotVal.original, none, []⟩ := by
    simp [getSpy]
  unfold checkV9Deprecation
  rw [e1]
  dsimp only
  rw [e2]
  rw [emitAll_original m _ rfl]
  dsimp only
  rw [e4]
  rw [if_pos rfl]
  have hs5 : (mockClear
      { slot := SlotVal.original,
        spies := fun j => if j = i then ⟨SlotVal.original, none, []⟩
          else (setSpy w i ⟨(getSpy w i).saved, some Impl.noop, (getSpy w i).calls⟩).spies j,
        nextId := w.nextId } i).slot = SlotVal.original := rfl
  generalize hgen : mockClear
      { slot := SlotVal.original,
        spies := fun j => if j = i then ⟨SlotVal.original, none, []⟩
          else (setSpy w i ⟨(getSpy w i).saved, some Impl.noop, (getSpy w i).calls⟩).spies j,
        nextId := w.nextId } i = v
  rw [hgen] at hs5
  rw [spyOn_original v Impl.noop hs5]
  dsimp only
  rw [emitAll_noop l
      { slot := SlotVal.spy v.nextId,
        spies := fun j => if j = v.nextId then ⟨SlotVal.original, some Impl.noop, []⟩ else v.spies j,
        nextId := v.nextId + 1 } v.nextId rfl (by simp [getSpy])]
  dsimp only
  rw [getSpy_setSpy_same]
  simp only [List.nil_append]
  constructor
  · by_cases hc : l.length = 1 <;> simp [hc, getSpy]
  · by_cases hc : l.length = 1 <;> simp [hc, getSpy, mockClear, setSpy]

theorem checkV9_run (m l : List String) (w : World) (hw : Clean w) :
    (checkV9Deprecation m l w).1 =
      (if l.length = 1 then none else some (Failure.wrongCount l.length))
    ∧ (checkV9Deprecation m l w).2.slot ≠ SlotVal.original := by
  cases h : w.slot with
  | original => exact checkV9_run_original m l w h
  | spy i => exact checkV9_run_spy m l w i hw h

theorem Clean_checkV9 (m l : List String) (w : World) (hw : Clean w) :
    Clean (checkV9Deprecation m l w).2 := by
  unfold checkV9Deprecation
  dsimp only
  have h2 : Clean (emitAll m
      (mockRestore (spyOnMockImpl w Impl.noop).2 (spyOnMockImpl w Impl.noop).1)).2 :=
    Clean_emitAll _ _ (Clean_mockRestore _ _ (Clean_spyOn w Impl.noop hw))
  split
  · exact h2
  · split
    · have h3 : Clean (emitAll l
          (spyOnMockImpl
            (mockClear
              (emitAll m
                (mockRestore (spyOnMockImpl w Impl.noop).2 (spyOnMockImpl w Impl.noop).1)).2
              (spyOnMockImpl w Impl.noop).1)
            Impl.noop).2).2 :=
        Clean_emitAll _ _ (Clean_spyOn _ Impl.noop (Clean_mockClear _ _ h2))
      split
      · exact h3
      · split
        · exact Clean_mockClear _ _ h3
        · exact h3
    · exact h2

theorem firstMismatch_none_all (l : List String) (e : String)
    (h : firstMismatch l e = none) : ∀ p ∈ l, matchStr p e = true := by
  induction l with
  | nil => intro p hp; cases hp
  | cons q rest ih =>
      intro p hp
      rw [firstMismatch] at h
      cases hq : matchStr q e with
      | false => rw [hq] at h; simp at h
      | true =>
          rw [hq, if_pos rfl] at h
          cases hp with
          | head => exact hq
          | tail _ hmem => exact ih h p hmem

theorem createCheck_run_original (names m l : List String) (key uniq : String)
    (w : World) (h : w.slot = SlotVal.original) :
    (createCheckV9Deprecation names m l key uniq w).1 =
      (if m = [] then
        (match firstMismatch l (expectedMessage names key uniq) with
         | some p => some (Failure.payloadMismatch p (expectedMessage names key uniq))
         | none => if l.length = 1 then none else some (Failure.wrongCount l.length))
       else some (Failure.modularWarned m))
    ∧ (createCheckV9Deprecation names m l key uniq w).2.slot ≠ SlotVal.original := by
  have e1 := spyOn_original w Impl.noop h
  have e2 : mockReset
      { slot := SlotVal.spy w.nextId,
        spies := fun j => if j = w.nextId then ⟨SlotVal.original, some Impl.noop, []⟩ else w.spies j,
        nextId := w.nextId + 1 } w.nextId
      = { slot := SlotVal.spy w.nextId,
          spies := fun j => if j = w.nextId then ⟨SlotVal.original, none, []⟩ else w.spies j,
          nextId := w.nextId + 1 } := by
    unfold mockReset setSpy
    refine World_mk_eq rfl (fun j => ?_) rfl
    by_cases hj : j = w.nextId <;> simp [hj, getSpy]
  have e3 : getSpy
      { slot := SlotVal.spy w.nextId,
        spies := fun j => if j = w.nextId then ⟨SlotVal.original, none, []⟩ else w.spies j,
        nextId := w.nextId + 1 } w.nextId = ⟨SlotVal.original, none, []⟩ := by
    simp [getSpy]
  simp only [expectedMessage]
  unfold createCheckV9Deprecation
  rw [e1]
  dsimp only
  generalize hmsg : createMessage (moduleNameOf names) key (instanceNameOf names) uniq = MSG
  rw [e2]
  rw [emitAll_noimpl m
      { slot := SlotVal.spy w.nextId,
        spies := fun j => if j = w.nextId then ⟨SlotVal.original, none, []⟩ else w.spies j,
        nextId := w.nextId + 1 } w.nextId rfl (by rw [e3])]
  dsimp only
  rw [e3]
  rw [getSpy_setSpy_same]
  dsimp only
  simp only [List.nil_append]
  by_cases hm0 : m = []
  · rw [if_pos hm0, if_pos hm0]
    have hs5 : (mockRestore (mockReset (setSpy
        { slot := SlotVal.spy w.nextId,
          spies := fun j => if j = w.nextId then ⟨SlotVal.original, none, []⟩ else w.spies j,
          nextId := w.nextId + 1 } w.nextId ⟨SlotVal.original, none, m⟩) w.nextId) w.nextId).slot
        = SlotVal.original := by
      simp [mockRestore, mockReset, setSpy, getSpy]
    generalize hgen : mockRestore (mockReset (setSpy
        { slot := SlotVal.spy w.nextId,
          spies := fun j => if j = w.nextId then ⟨SlotVal.original, none, []⟩ else w.spies j,
          nextId := w.nextId + 1 } w.nextId ⟨SlotVal.original, none, m⟩) w.nextId) w.nextId = v
    rw [hgen] at hs5
    rw [spyOn_original v (Impl.matcher MSG) hs5]
    dsimp only
    rcases hfm : firstMismatch l MSG with _ | p
    · have hall := firstMismatch_none_all l MSG hfm
      rw [emitAll_matcher_ok l
          { slot := SlotVal.spy v.nextId,
            spies := fun j => if j = v.nextId then ⟨SlotVal.original, some (Impl.matcher MSG), []⟩ else v.spies j,
            nextId := v.nextId + 1 } v.nextId MSG rfl (by simp [getSpy]) hall]
      dsimp only
      rw [getSpy_setSpy_same]
      simp only [List.nil_append]
      constructor
      · by_cases hc : l.length = 1 <;> simp [hc, getSpy]
      · by_cases hc : l.length = 1 <;> simp [hc, getSpy, mockReset, setSpy]
    · rcases he : emitAll l
          { slot := SlotVal.spy v.nextId,
            spies := fun j => if j = v.nextId then ⟨SlotVal.original, some (Impl.matcher MSG), []⟩ else v.spies j,
            nextId := v.nextId + 1 } with ⟨f, wz⟩
      have hf : f = some (Failure.payloadMismatch p MSG) := by
        have h9 := emitAll_matcher_fail l
            { slot := SlotVal.spy v.nextId,
              spies := fun j => if j = v.nextId then ⟨SlotVal.original, some (Impl.matcher MSG), []⟩ else v.spies j,
              nextId := v.nextId + 1 } v.nextId MSG p rfl (by simp [getSpy]) hfm
        rw [he] at h9
        exact h9
      subst hf
      dsimp only
      have h10 : wz.slot = SlotVal.spy v.nextId := by
        have h11 := slot_emitAll l
            { slot := SlotVal.spy v.nextId,
              spies := fun j => if j = v.nextId then ⟨SlotVal.original, some (Impl.matcher MSG), []⟩ else v.spies j,
              nextId := v.nextId + 1 }
        rw [he] at h11
        exact h11
      constructor
      · rfl
      · rw [h10]
        simp
  · rw [if_neg hm0, if_neg hm0]
    constructor
    · rfl
    · simp [setSpy]

theorem createCheck_run_spy (names m l : List String) (key uniq : String)
    (w : World) (i : Nat) (hw : Clean w) (h : w.slot = SlotVal.spy i) :
    (createCheckV9Deprecation names m l key uniq w).1 =
      (if m = [] then
        (match firstMismatch l (expectedMessage names key uniq) with
         | some p => some (Failure.payloadMismatch p (expectedMessage names key uniq))
         | none => if l.length = 1 then none else some (Failure.wrongCount l.length))
       else some (Failure.modularWarned m))
    ∧ (createCheckV9Deprecation names m l key uniq w).2.slot ≠ SlotVal.original := by
  have hsv : (getSpy w i).saved = SlotVal.original := hw i
  have e1 : spyOnMockImpl w Impl.noop
      = (i, setSpy w i ⟨(getSpy w i).saved, some Impl.noop, (getSpy w i).calls⟩) := by
    unfold spyOnMockImpl
    rw [h]
  have e2 : mockReset (setSpy w i ⟨(getSpy w i).saved, some Impl.noop, (getSpy w i).calls⟩) i
      = setSpy w i ⟨(getSpy w i).saved, none, []⟩ := by
    unfold mockReset
    rw [getSpy_setSpy_same, setSpy_setSpy]
  simp only [expectedMessage]
  unfold createCheckV9Deprecation
  rw [e1]
  dsimp only
  generalize hmsg : createMessage (moduleNameOf names) key (instanceNameOf names) uniq = MSG
  rw [e2]
  rw [emitAll_noimpl m (setSpy w i ⟨(getSpy w i).saved, none, []⟩) i
      (by rw [slot_setSpy, h]) (by rw [getSpy_setSpy_same])]
  dsimp only
  simp only [getSpy_setSpy_same]
  simp only [List.nil_append]
  by_cases hm0 : m = []
  · rw [if_pos hm0, if_pos hm0]
    generalize hgen : mockRestore (mockReset (setSpy (setSpy w i ⟨(getSpy w i).saved, none, []⟩) i
        ⟨(getSpy w i).saved, none, m⟩) i) i = v
    have hs5 : v.slot = SlotVal.original := by
      rw [← hgen]
      simp [mockRestore, mockReset, setSpy, getSpy]
      exact hsv
    rw [spyOn_original v (Impl.matcher MSG) hs5]
    dsimp only
    rcases hfm : firstMismatch l MSG with _ | p
    · have hall := firstMismatch_none_all l MSG hfm
      rw [emitAll_matcher_ok l
          { slot := SlotVal.spy v.nextId,
            spies := fun j => if j = v.nextId then ⟨SlotVal.original, some (Impl.matcher MSG), []⟩ else v.spies j,
            nextId := v.nextId + 1 } v.nextId MSG rfl (by simp [getSpy]) hall]
      dsimp only
      rw [getSpy_setSpy_same]
      simp only [List.nil_append]
      constructor
      · by_cases hc : l.length = 1 <;> simp [hc, getSpy]
      · by_cases hc : l.length = 1 <;> simp [hc, getSpy, mockReset, setSpy]
    · rcases he : emitAll l
          { slot := SlotVal.spy v.nextId,
            spies := fun j => if j = v.nextId then ⟨SlotVal.original, some (Impl.matcher MSG), []⟩ else v.spies j,
            nextId := v.nextId + 1 } with ⟨f, wz⟩
      have hf : f = some (Failure.payloadMismatch p MSG) := by
        have h9 := emitAll_matcher_fail l
            { slot := SlotVal.spy v.nextId,
              spies := fun j => if j = v.nextId then ⟨SlotVal.original, some (Impl.matcher MSG), []⟩ else v.spies j,
              nextId := v.nextId + 1 } v.nextId MSG p rfl (by simp [getSpy]) hfm
        rw [he] at h9
        exact h9
      subst hf
      dsimp only
      have h10 : wz.slot = SlotVal.spy v.nextId := by
        have h11 := slot_emitAll l
            { slot := SlotVal.spy v.nextId,
              spies := fun j => if j = v.nextId then ⟨SlotVal.original, some (Impl.matcher MSG), []⟩ else v.spies j,
              nextId := v.nextId + 1 }
        rw [he] at h11
        exact h11
      constructor
      · rfl
      · rw [h10]
        simp
  · rw [if_neg hm0, if_neg hm0]
    constructor
    · rfl
    · simp [setSpy, h]

theorem createCheck_run (names m l : List String) (key uniq : String)
    (w : World) (hw : Clean w) :
    (createCheckV9Deprecation names m l key uniq w).1 =
      (if m = [] then
        (match firstMismatch l (expectedMessage names key uniq) with
         | some p => some (Failure.payloadMismatch p (expectedMessage names key uniq))
         | none => if l.length = 1 then none else some (Failure.wrongCount l.length))
       else some (Failure.modularWarned m))
    ∧ (createCheckV9Deprecation names m l key uniq w).2.slot ≠ SlotVal.original := by
  cases h : w.slot with
  | original => exact createCheck_run_original names m l key uniq w h
  | spy i => exact createCheck_run_spy names m l key uniq w i hw h

theorem Clean_createCheck (names m l : List String) (key uniq : String)
    (w : World) (hw : Clean w) :
    Clean (createCheckV9Deprecation names m l key uniq w).2 := by
  unfold createCheckV9Deprecation
  dsimp only
  have h2 : Clean (emitAll m
      (mockReset (spyOnMockImpl w Impl.noop).2 (spyOnMockImpl w Impl.noop).1)).2 :=
    Clean_emitAll _ _ (Clean_mockReset _ _ (Clean_spyOn w Impl.noop hw))
  split
  · exact h2
  · split
    · have h3 : Clean (emitAll l
          (spyOnMockImpl
            (mockRestore
              (mockReset
                (emitAll m
                  (mockReset (spyOnMockImpl w Impl.noop).2 (spyOnMockImpl w Impl.noop).1)).2
                (spyOnMockImpl w Impl.noop).1)
              (spyOnMockImpl w Impl.noop).1)
            (Impl.matcher (createMessage (moduleNameOf names) key (instanceNameOf names) uniq))).2).2 :=
        Clean_emitAll _ _ (Clean_spyOn _ _
          (Clean_mockRestore _ _ (Clean_mockReset _ _ h2)))
      split
      · exact h3
      · split
        · exact Clean_mockReset _ _ h3
        · exact h3
    · exact h2

theorem firstMismatch_append (l1 l2 : List String) (p e : String)
    (hall : ∀ q ∈ l1, matchStr q e = true) (hp : matchStr p e = false) :
    firstMismatch (l1 ++ p :: l2) e = some p := by
  induction l1 with
  | nil =>
      rw [List.nil_append, firstMismatch, hp]
      simp
  | cons q rest ih =>
      rw [List.cons_append, firstMismatch, if_pos (hall q (List.mem_cons_self q rest))]
      exact ih fun r hr => hall r (List.mem_cons_of_mem q hr)

theorem createCheck_single_payload (names : List String) (key uniq p : String) :
    (createCheckV9Deprecation names [] [p] key uniq initWorld).1 = none
      ↔ matchStr p (expectedMessage names key uniq) = true := by
  have h := (createCheck_run names [] [p] key uniq initWorld Clean_initWorld).1
  rw [h, if_pos rfl]
  cases hm : matchStr p (expectedMessage names key uniq) with
  | true =>
      rw [show firstMismatch [p] (expectedMessage names key uniq) = none from by
        rw [firstMismatch, if_pos hm]
        rfl]
      simp
  | false =>
      rw [show firstMismatch [p] (expectedMessage names key uniq) = some p from by
        rw [firstMismatch, hm]
        simp]
      simp

/-- Claim C1: for every pair of modular/legacy functions, the harness asserts at the
legacy call that the warning interceptor was invoked exactly once; a count of zero or
more than one surfaces as an assertion failure. -/
theorem legacy_phase_asserts_exactly_once
    (m l names : List String) (key uniq : String)
    (hall : ∀ p ∈ l, matchStr p (expectedMessage names key uniq) = true) :
    ((checkV9Deprecation m l initWorld).1 = none ↔ l.length = 1)
    ∧ ((createCheckV9Deprecation names m l key uniq initWorld).1 = none
        ↔ (m = [] ∧ l.length = 1)) := by
  constructor
  · rw [(checkV9_run m l initWorld Clean_initWorld).1]
    by_cases hc : l.length = 1 <;> simp [hc]
  · rw [(createCheck_run names m l key uniq initWorld Clean_initWorld).1]
    by_cases hm0 : m = []
    · rw [if_pos hm0, firstMismatch_none l _ hall]
      by_cases hc : l.length = 1 <;> simp [hc, hm0]
    · rw [if_neg hm0]
      simp [hm0]

theorem legacy_phase_asserts_exactly_once_witness :
    (∀ p ∈ [expectedMessage ["database"] "ref" ""],
        matchStr p (expectedMessage ["database"] "ref" "") = true)
    ∧ (((checkV9Deprecation ["modular-warning"] [expectedMessage ["database"] "ref" ""] initWorld).1 = none
          ↔ [expectedMessage ["database"] "ref" ""].length = 1)
      ∧ ((createCheckV9Deprecation ["database"] ["modular-warning"] [expectedMessage ["database"] "ref" ""] "ref" "" initWorld).1 = none
          ↔ (["modular-warning"] = ([] : List String)
              ∧ [expectedMessage ["database"] "ref" ""].length = 1))) :=
  ⟨by decide,
    legacy_phase_asserts_exactly_once ["modular-warning"]
      [expectedMessage ["database"] "ref" ""] ["database"] "ref" "" (by decide)⟩

/-- Claim C2 (failing input): `checkV9Deprecation` restores the spy before invoking
the modular function, so a modular function that emits a warning does NOT trigger an
assertion failure: the run passes whenever the legacy function warns exactly once.
The claim says such a run must fail. -/
theorem checkV9_passes_despite_modular_warning :
    (checkV9Deprecation ["unexpected-modular-warning"] ["legacy-warning"] initWorld).1 = none := by
  decide

/-- Claim C3: in the checker returned by `createCheckV9Deprecation`, every legacy
warning payload is matched against the formatted expected message; the first
mismatching payload propagates synchronously as an assertion failure. -/
theorem legacy_payload_mismatch_fails
    (names l1 l2 : List String) (p key uniq : String)
    (hall : ∀ q ∈ l1, matchStr q (expectedMessage names key uniq) = true)
    (hp : matchStr p (expectedMessage names key uniq) = false) :
    (createCheckV9Deprecation names [] (l1 ++ p :: l2) key uniq initWorld).1
      = some (Failure.payloadMismatch p (expectedMessage names key uniq)) := by
  rw [(createCheck_run names [] (l1 ++ p :: l2) key uniq initWorld Clean_initWorld).1,
    if_pos rfl, firstMismatch_append l1 l2 p _ hall hp]

theorem legacy_payload_mismatch_fails_witness :
    (∀ q ∈ ([] : List String), matchStr q (expectedMessage ["database"] "ref" "") = true)
    ∧ matchStr "wrong-payload" (expectedMessage ["database"] "ref" "") = false
    ∧ (createCheckV9Deprecation ["database"] [] ([] ++ "wrong-payload" :: []) "ref" "" initWorld).1
        = some (Failure.payloadMismatch "wrong-payload" (expectedMessage ["database"] "ref" "")) :=
  ⟨by decide, by decide,
    legacy_payload_mismatch_fails ["database"] [] [] "wrong-payload" "ref" ""
      (by decide) (by decide)⟩

/-- Claim C4 (counterexample): after a successful run of `checkV9Deprecation` the
warning channel is NOT restored to its prior state: the second spy remains
installed in the `console.warn` slot. -/
theorem warn_channel_not_restored_counterexample :
    (checkV9Deprecation [] ["legacy-warning"] initWorld).2.slot ≠ SlotVal.original
    ∧ (createCheckV9Deprecation ["database"] [] [expectedMessage ["database"] "ref" ""]
        "ref" "" initWorld).2.slot ≠ SlotVal.original := by
  constructor
  · decide
  · decide

/-- Claim C4 (amended): on every exit path, of either harness, the warning channel
is left holding a spy: `console.warn` is never restored to its pre-invocation
state when the harness returns. -/
theorem warn_channel_never_restored
    (m l names : List String) (key uniq : String) (w : World) (hw : Clean w) :
    (checkV9Deprecation m l w).2.slot ≠ SlotVal.original
    ∧ (createCheckV9Deprecation names m l key uniq w).2.slot ≠ SlotVal.original :=
  ⟨(checkV9_run m l w hw).2, (createCheck_run names m l key uniq w hw).2⟩

theorem warn_channel_never_restored_witness :
    Clean initWorld
    ∧ ((checkV9Deprecation ["a"] ["b", "c"] initWorld).2.slot ≠ SlotVal.original
      ∧ (createCheckV9Deprecation ["database"] ["a"] ["b", "c"] "ref" "" initWorld).2.slot
          ≠ SlotVal.original) :=
  ⟨Clean_initWorld,
    warn_channel_never_restored ["a"] ["b", "c"] ["database"] "ref" "" initWorld Clean_initWorld⟩

/-- Claim C5: the observation point for the legacy phase starts fresh (the spies are
cleared/reset between phases), so modular-phase warnings never contribute to the
asserted count: the `checkV9Deprecation` verdict does not depend on the modular
function at all, and the count the factory checker asserts against is exactly the
number of legacy warnings. -/
theorem legacy_count_isolated_from_modular_phase
    (m m2 l names : List String) (key uniq : String)
    (hall : ∀ p ∈ l, matchStr p (expectedMessage names key uniq) = true) :
    ((checkV9Deprecation m l initWorld).1 = (checkV9Deprecation m2 l initWorld).1)
    ∧ (l.length ≠ 1 →
        (createCheckV9Deprecation names [] l key uniq initWorld).1
          = some (Failure.wrongCount l.length)) := by
  constructor
  · rw [(checkV9_run m l initWorld Clean_initWorld).1,
      (checkV9_run m2 l initWorld Clean_initWorld).1]
  · intro hc
    rw [(createCheck_run names [] l key uniq initWorld Clean_initWorld).1,
      if_pos rfl, firstMismatch_none l _ hall]
    simp [hc]

theorem legacy_count_isolated_from_modular_phase_witness :
    (∀ p ∈ [expectedMessage ["database"] "ref" "", expectedMessage ["database"] "ref" ""],
        matchStr p (expectedMessage ["database"] "ref" "") = true)
    ∧ (((checkV9Deprecation ["a"] [expectedMessage ["database"] "ref" "", expectedMessage ["database"] "ref" ""] initWorld).1
          = (checkV9Deprecation [] [expectedMessage ["database"] "ref" "", expectedMessage ["database"] "ref" ""] initWorld).1)
      ∧ ([expectedMessage ["database"] "ref" "", expectedMessage ["database"] "ref" ""].length ≠ 1 →
          (createCheckV9Deprecation ["database"] []
            [expectedMessage ["database"] "ref" "", expectedMessage ["database"] "ref" ""] "ref" "" initWorld).1
            = some (Failure.wrongCount
                [expectedMessage ["database"] "ref" "", expectedMessage ["database"] "ref" ""].length))) :=
  ⟨by decide,
    legacy_count_isolated_from_modular_phase ["a"] []
      [expectedMessage ["database"] "ref" "", expectedMessage ["database"] "ref" ""]
      ["database"] "ref" "" (by decide)⟩

/-- Claim C6: running either harness twice in succession with the same arguments
yields the same verdict both times: the state the first run leaves behind (a spy
still installed in the slot, with whatever it recorded) does not change the second
run's outcome. -/
theorem harness_idempotent (m l names : List String) (key uniq : String) :
    ((checkV9Deprecation m l (checkV9Deprecation m l initWorld).2).1
      = (checkV9Deprecation m l initWorld).1)
    ∧ ((createCheckV9Deprecation names m l key uniq
          (createCheckV9Deprecation names m l key uniq initWorld).2).1
        = (createCheckV9Deprecation names m l key uniq initWorld).1) := by
  constructor
  · rw [(checkV9_run m l initWorld Clean_initWorld).1,
      (checkV9_run m l _ (Clean_checkV9 m l initWorld Clean_initWorld)).1]
  · rw [(createCheck_run names m l key uniq initWorld Clean_initWorld).1,
      (createCheck_run names m l key uniq _
        (Clean_createCheck names m l key uniq initWorld Clean_initWorld)).1]

/-- Claim C7: the message formatter is deterministic and side-effect free — it is a
pure function of the identifying tuple, so equal inputs always produce equal output
strings. -/
theorem createMessage_deterministic
    (a b c d a2 b2 c2 d2 : String)
    (h1 : a = a2) (h2 : b = b2) (h3 : c = c2) (h4 : d = d2) :
    createMessage a b c d = createMessage a2 b2 c2 d2 := by
  rw [h1, h2, h3, h4]

theorem createMessage_deterministic_witness :
    ("database" : String) = "database"
    ∧ ("onValue" : String) = "onValue"
    ∧ ("default" : String) = "default"
    ∧ ("" : String) = ""
    ∧ createMessage "database" "onValue" "default" ""
        = createMessage "database" "onValue" "default" "" :=
  ⟨rfl, rfl, rfl, rfl,
    createMessage_deterministic "database" "onValue" "default" ""
      "database" "onValue" "default" "" rfl rfl rfl rfl⟩

/-- Claim C8: `createCheckV9Deprecation moduleNames` returns a checker taking the
modular function, the legacy function, the method key and the unique message, and
the expected message it matches legacy warnings against is built from
`moduleNames[0]` as the module name and `moduleNames[1]` as the instance name. -/
theorem createCheck_binds_module_and_instance
    (moduleName instanceName : String) (rest : List String) (key uniq p : String)
    (hinst : instanceName ≠ "") :
    (createCheckV9Deprecation (moduleName :: instanceName :: rest) [] [p] key uniq initWorld).1 = none
      ↔ matchStr p (createMessage moduleName key instanceName uniq) = true := by
  have hmsg : expectedMessage (moduleName :: instanceName :: rest) key uniq
      = createMessage moduleName key instanceName uniq := by
    unfold expectedMessage moduleNameOf instanceNameOf
    simp [hinst]
  rw [← hmsg]
  exact createCheck_single_payload (moduleName :: instanceName :: rest) key uniq p

theorem createCheck_binds_module_and_instance_witness :
    ("FirestoreCollectionReference" : String) ≠ ""
    ∧ ((createCheckV9Deprecation ["firestore", "FirestoreCollectionReference"] []
          [createMessage "firestore" "where" "FirestoreCollectionReference" ""] "where" "" initWorld).1 = none
        ↔ matchStr (createMessage "firestore" "where" "FirestoreCollectionReference" "")
            (createMessage "firestore" "where" "FirestoreCollectionReference" "") = true) :=
  ⟨by decide,
    createCheck_binds_module_and_instance "firestore" "FirestoreCollectionReference" []
      "where" "" (createMessage "firestore" "where" "FirestoreCollectionReference" "")
      (by decide)⟩

/-- Claim C9: when `moduleNames` has no second element, or its second element is the
empty string (falsy), the instance name used in the expected message defaults to
"default". -/
theorem instance_name_defaults_to_default
    (moduleName : String) (rest : List String) (key uniq p : String) :
    ((createCheckV9Deprecation [moduleName] [] [p] key uniq initWorld).1 = none
      ↔ matchStr p (createMessage moduleName key "default" uniq) = true)
    ∧ ((createCheckV9Deprecation (moduleName :: "" :: rest) [] [p] key uniq initWorld).1 = none
      ↔ matchStr p (createMessage moduleName key "default" uniq) = true) := by
  constructor
  · have hmsg : expectedMessage [moduleName] key uniq
        = createMessage moduleName key "default" uniq := by
      unfold expectedMessage moduleNameOf instanceNameOf
      simp
    rw [← hmsg]
    exact createCheck_single_payload [moduleName] key uniq p
  · have hmsg : expectedMessage (moduleName :: "" :: rest) key uniq
        = createMessage moduleName key "default" uniq := by
      unfold expectedMessage moduleNameOf instanceNameOf
      simp
    rw [← hmsg]
    exact createCheck_single_payload (moduleName :: "" :: rest) key uniq p

/-- Claim C10: in `checkV9Deprecation` the first spy is restored (uninstalled)
before the modular function runs, so its recorded count at the zero-invocations
assertion is always zero and that assertion never fails — for any modular function,
warning-emitting ones included, the run never reports an unexpected modular
warning. -/
theorem checkV9_modular_assertion_never_fails (m l c : List String) :
    (checkV9Deprecation m l initWorld).1 ≠ some (Failure.modularWarned c) := by
  rw [(checkV9_run m l initWorld Clean_initWorld).1]
  by_cases hc : l.length = 1 <;> simp [hc]

end DeprecationHarness
